import Mathlib

/-!
Verification of the MentorAI retrieval subsystem.

This file is a shallow embedding, in Lean, of the retrieval core of the
MentorAI backend (`backend/app/services/retrieval.py`), its chunking
script (`backend/scripts/ingest_dayone.py`) and the source-filter
validation of the `/search` HTTP handler (`backend/app/main.py`),
together with theorems about the embedded definitions.

Modelling conventions:
- Python strings are `List Char` (`Str`); Python `str.lower` is modelled
  on its ASCII fragment, `str.strip` strips the ASCII whitespace
  characters recognised by `Char.isWhitespace`.
- The regular expressions used by the intent detector all have the shape
  `\b<literal>\b`; the word-boundary semantics is embedded directly
  (`wbSearch`), with `\w` modelled by its ASCII fragment
  (alphanumeric or underscore).
- Python floats appear in the code only as `0.8` in
  `int(top_k * 0.8)` and as relevance scores.  `int(top_k * 0.8)` equals
  `top_k * 4 / 5` in natural division for every realistic `top_k`
  (the IEEE double nearest to 0.8 is `0.8 + 2⁻⁵⁵·…`, slightly above 4/5,
  so the product is slightly above `4k/5` and floors to `⌊4k/5⌋`;
  when `4k/5` is an integer the product rounds back to it because the
  relative representation error of `0.8`, about `5.5·10⁻¹⁷`, is below
  every half-ulp in range).  Relevance scores are modelled as `ℚ`:
  the claims about them only concern ordering and equality.
- The vector store and embedding gateway are external collaborators.
  A store is a function from issued queries to result rows; `retrieve`
  additionally returns the list of store queries it issued, which is the
  observable the claims about query counts and allocations refer to.
- `datetime.fromisoformat`-based date rendering (`_format_date`) is an
  opaque string-to-string parameter `fd`; no claim depends on its output.
-/

set_option maxRecDepth 100000

namespace MentorAI

/-- Python strings, modelled as lists of characters. -/
abbrev Str := List Char

/-- ASCII fragment of Python `str.lower` on a single character. -/
def lowerChar (c : Char) : Char :=
  if 65 ≤ c.toNat ∧ c.toNat ≤ 90 then Char.ofNat (c.toNat + 32) else c

/-- Python `str.lower` (ASCII fragment). -/
def pyLower (s : Str) : Str := s.map lowerChar

/-- Word character for the regex `\b` word boundary (ASCII fragment of `\w`). -/
def isWordChar (c : Char) : Bool := c.isAlphanum || c == '_'

/-- A position is a word boundary next to a word character of the keyword
if the adjacent outside character is absent or not a word character. -/
def boundaryOK : Option Char → Bool
  | none => true
  | some c => !(isWordChar c)

/-- Does the literal keyword `kw`, anchored by `\b` on both sides, match at the
start of `q`, where `prev` is the character just before `q` (if any)?
All keywords begin and end with word characters, so `\b` holds exactly when
the adjacent outside character is absent or not a word character. -/
def wbMatchHere (kw q : Str) (prev : Option Char) : Bool :=
  boundaryOK prev && kw.isPrefixOf q && boundaryOK (q.drop kw.length).head?

/-- Scan of `re.search` for the pattern `\b kw \b` over the rest of the query. -/
def wbSearchAux (kw : Str) : Option Char → Str → Bool
  | prev, [] => wbMatchHere kw [] prev
  | prev, c :: rest => wbMatchHere kw (c :: rest) prev || wbSearchAux kw (some c) rest

/-- `re.search(r"\b" + kw + r"\b", q) is not None` for a literal keyword `kw`. -/
def wbSearch (kw q : Str) : Bool := wbSearchAux kw none q

/-- literal texts of `BLOG_KEYWORDS` (each used as the pattern `\b…\b`). -/
def BLOG_KEYWORDS : List Str :=
  ["blog".toList, "post".toList, "posts".toList, "article".toList,
   "articles".toList, "public writing".toList, "published".toList,
   "essay".toList, "essays".toList, "wordpress".toList, "public".toList]

/-- literal texts of `JOURNAL_KEYWORDS` (each used as the pattern `\b…\b`). -/
def JOURNAL_KEYWORDS : List Str :=
  ["journal".toList, "diary".toList, "private".toList, "personal".toList,
   "entry".toList, "entries".toList, "dayone".toList, "day one".toList,
   "private writing".toList, "reflection".toList, "reflections".toList]

/-- the `SourcePriority` enum. -/
inductive SourcePriority where
  | NONE
  | JOURNAL
  | BLOG
deriving DecidableEq, Repr

/-- number of keyword patterns of `kws` that match the lowercased query:
`sum(1 for pattern in kws if re.search(pattern, query.lower()))`. -/
def count_keyword_matches (kws : List Str) (query : Str) : Nat :=
  List.countP (fun kw => wbSearch kw (pyLower query)) kws

/-- `RetrievalService._detect_source_priority`. -/
def detect_source_priority (query : Str) : SourcePriority :=
  let blog_matches := count_keyword_matches BLOG_KEYWORDS query
  let journal_matches := count_keyword_matches JOURNAL_KEYWORDS query
  if blog_matches > journal_matches ∧ blog_matches > 0 then SourcePriority.BLOG
  else if journal_matches > blog_matches ∧ journal_matches > 0 then SourcePriority.JOURNAL
  else SourcePriority.NONE

/-! Chunker (`backend/scripts/ingest_dayone.py`). -/

/-- `estimate_tokens`: `len(text) // 4`. -/
def estimate_tokens (text : Str) : Nat := text.length / 4

/-- index of the first occurrence of (nonempty) `sep` in `s`, if any. -/
def findSub (sep : Str) : Str → Option Nat
  | [] => none
  | c :: rest =>
    if sep.isPrefixOf (c :: rest) then some 0
    else (findSub sep rest).map (· + 1)

/-- fuel-driven worker for `pySplit`; the fuel only bounds the number of
separator occurrences, which is at most `s.length` for a nonempty separator. -/
def pySplitAux (sep : Str) : Nat → Str → List Str
  | 0, s => [s]
  | fuel + 1, s =>
    match findSub sep s with
    | none => [s]
    | some i => s.take i :: pySplitAux sep fuel (s.drop (i + sep.length))

/-- Python `s.split(sep)` for a nonempty separator (`''.split(sep) = ['']`,
splits are non-overlapping, left to right). -/
def pySplit (sep : Str) (s : Str) : List Str := pySplitAux sep (s.length + 1) s

/-- Python `s.strip()` (ASCII whitespace fragment). -/
def pyStrip (s : Str) : Str :=
  ((s.dropWhile Char.isWhitespace).reverse.dropWhile Char.isWhitespace).reverse

/-- Python `sep.join(parts)`. -/
def joinSep (sep : Str) : List Str → Str
  | [] => []
  | [x] => x
  | x :: xs => x ++ sep ++ joinSep sep xs

/-- the `"\n\n"` paragraph separator. -/
def nlnl : Str := ['\n', '\n']

/-- the `". "` sentence separator. -/
def dotSpace : Str := ['.', ' ']

/-- loop state of `chunk_text`: closed chunks, the accumulator `current_chunk`,
and its running token estimate `current_tokens`. -/
structure ChunkState where
  chunks : List Str
  current_chunk : List Str
  current_tokens : Nat
deriving DecidableEq, Repr

/-- the shared accumulate/close-on-overflow step, applied to one unit `u`
(a paragraph, or a sentence of an oversized paragraph): close the current
chunk when adding `u` would push the estimate over `target_tokens` and the
accumulator is non-empty; otherwise accumulate. -/
def stepUnit (target_tokens : Nat) (st : ChunkState) (u : Str) : ChunkState :=
  let u_tokens := estimate_tokens u
  if st.current_tokens + u_tokens > target_tokens ∧ st.current_chunk ≠ [] then
    { chunks := st.chunks ++ [joinSep nlnl st.current_chunk],
      current_chunk := [u], current_tokens := u_tokens }
  else
    { chunks := st.chunks, current_chunk := st.current_chunk ++ [u],
      current_tokens := st.current_tokens + u_tokens }

/-- the body of the `for paragraph in paragraphs` loop of `chunk_text`:
strip the paragraph, skip it if blank, split it on `". "` if it alone
exceeds `max_tokens`, otherwise treat it as a single unit. -/
def stepPara (target_tokens max_tokens : Nat) (st : ChunkState) (p0 : Str) : ChunkState :=
  let p := pyStrip p0
  if p = [] then st
  else if estimate_tokens p > max_tokens then
    (pySplit dotSpace p).foldl (stepUnit target_tokens) st
  else stepUnit target_tokens st p

/-- `chunk_text(text, target_tokens, max_tokens)`. -/
def chunk_text (text : Str) (target_tokens : Nat := 650) (max_tokens : Nat := 800) : List Str :=
  if estimate_tokens text ≤ max_tokens then [text]
  else
    let st := (pySplit nlnl text).foldl (stepPara target_tokens max_tokens) ⟨[], [], 0⟩
    if st.current_chunk ≠ [] then st.chunks ++ [joinSep nlnl st.current_chunk]
    else st.chunks

/-- the chunk texts produced for one DayOne entry by `process_entry`
(which guards `if not text or not text.strip(): return []`
before calling `chunk_text` with its default sizes). -/
def process_entry_chunks (text : Str) : List Str :=
  if text = [] ∨ pyStrip text = [] then [] else chunk_text text

/-! Retrieval engine (`backend/app/services/retrieval.py`). -/

/-- the metadata key `"source_type"`. -/
def sourceTypeKey : Str := "source_type".toList

/-- the source-type value `"dayone"` (private journal). -/
def dayoneStr : Str := "dayone".toList

/-- the source-type value `"wordpress"` (public blog). -/
def wordpressStr : Str := "wordpress".toList

/-- the source-type value `"wisdom"` (contemplative texts). -/
def wisdomStr : Str := "wisdom".toList

/-- the default `"unknown"` used by `metadata.get("source_type", "unknown")`. -/
def unknownStr : Str := "unknown".toList

/-- Python `metadata.get(key, default)` over a scalar string-valued mapping. -/
def dictGetD (m : List (Str × Str)) (key dflt : Str) : Str :=
  match m.find? (fun p => p.1 == key) with
  | some p => p.2
  | none => dflt

/-- one row of a (flattened) vector-store search result: positionally
aligned entries of the `ids`, `documents`, `metadatas`, `distances` lists
returned by `VectorStore.search` (the collaborator interface guarantees
alignment, so a row-per-result representation is the faithful one). -/
structure SearchRow where
  id : Str
  document : Str
  metadata : List (Str × Str)
  distance : ℚ
deriving DecidableEq, Repr

/-- a filtered query issued to the vector store: `n_results` plus the
optional `where={"source_type": s}` equality filter. -/
structure StoreQuery where
  n_results : Nat
  source_where : Option Str
deriving DecidableEq, Repr

/-- the vector store collaborator, as seen by one `retrieve` call (the query
embedding is fixed throughout a call, so it is not a separate argument). -/
abbrev Store := StoreQuery → List SearchRow

/-- `RetrievedChunk`. -/
structure RetrievedChunk where
  id : Str
  text : Str
  metadata : List (Str × Str)
  distance : ℚ
  relevance_score : ℚ
  source_type : Str
deriving DecidableEq, Repr

/-- `RetrievedChunk.is_journal`: from the private journal (DayOne). -/
def RetrievedChunk.is_journal (c : RetrievedChunk) : Bool :=
  c.source_type == dayoneStr

/-- `RetrievedChunk.is_blog`: from the public blog (WordPress). -/
def RetrievedChunk.is_blog (c : RetrievedChunk) : Bool :=
  c.source_type == wordpressStr

/-- `RetrievedChunk.is_wisdom`: from wisdom/contemplative texts. -/
def RetrievedChunk.is_wisdom (c : RetrievedChunk) : Bool :=
  c.source_type == wisdomStr

/-- `RetrievalService._results_to_chunks`. -/
def results_to_chunks (rows : List SearchRow) : List RetrievedChunk :=
  rows.map fun r =>
    { id := r.id, text := r.document, metadata := r.metadata,
      distance := r.distance, relevance_score := 1 - r.distance,
      source_type := dictGetD r.metadata sourceTypeKey unknownStr }

/-- the comparison used by `all_chunks.sort(key=..., reverse=True)`:
`a` may come before `b` when `b`'s relevance score is not larger. -/
def chunkGE (a b : RetrievedChunk) : Prop :=
  b.relevance_score ≤ a.relevance_score

instance : DecidableRel chunkGE :=
  fun a b => inferInstanceAs (Decidable (b.relevance_score ≤ a.relevance_score))

instance : IsTotal RetrievedChunk chunkGE :=
  ⟨fun a b => (le_total b.relevance_score a.relevance_score).imp id id⟩

instance : IsTrans RetrievedChunk chunkGE :=
  ⟨fun _ _ _ hab hbc => le_trans hbc hab⟩

/-- Python's `list.sort(key=lambda c: c.relevance_score, reverse=True)`:
a stable sort by descending relevance score.  Stable sorts by the same key
produce the same list, so insertion sort is an exact model of Timsort. -/
def sortByRelevanceDesc (l : List RetrievedChunk) : List RetrievedChunk :=
  List.insertionSort chunkGE l

/-- `per_source = max(1, top_k // 2)` of `_balanced_search`. -/
def per_source (top_k : Nat) : Nat := max 1 (top_k / 2)

/-- `primary_count = max(1, int(top_k * 0.8))` of `_prioritized_search`;
`int(top_k * 0.8) = top_k * 4 / 5` in natural division (see the float
analysis in the header comment). -/
def primary_count (top_k : Nat) : Nat := max 1 (top_k * 4 / 5)

/-- `secondary_count = max(1, top_k - primary_count)`; natural subtraction
agrees with Python here since `max 1` absorbs any non-positive value. -/
def secondary_count (top_k : Nat) : Nat := max 1 (top_k - primary_count top_k)

/-- `RetrievalService._balanced_search`, returning the chunk list and the
store queries it issued, in order. -/
def balanced_search (store : Store) (top_k : Nat) :
    List RetrievedChunk × List StoreQuery :=
  let qJournal : StoreQuery := ⟨per_source top_k, some dayoneStr⟩
  let qBlog : StoreQuery := ⟨per_source top_k, some wordpressStr⟩
  let journal_chunks := results_to_chunks (store qJournal)
  let blog_chunks := results_to_chunks (store qBlog)
  let all_chunks := sortByRelevanceDesc (journal_chunks ++ blog_chunks)
  (all_chunks.take top_k, [qJournal, qBlog])

/-- `RetrievalService._prioritized_search` (with `primary_ratio = 0.8`,
the only value the caller passes), returning the chunk list and the store
queries it issued, in order. -/
def prioritized_search (store : Store) (top_k : Nat) (primary_source : Str) :
    List RetrievedChunk × List StoreQuery :=
  let other_source := if primary_source == wordpressStr then dayoneStr else wordpressStr
  let qPrimary : StoreQuery := ⟨primary_count top_k, some primary_source⟩
  let qSecondary : StoreQuery := ⟨secondary_count top_k, some other_source⟩
  let primary_chunks := results_to_chunks (store qPrimary)
  let secondary_chunks := results_to_chunks (store qSecondary)
  let all_chunks := sortByRelevanceDesc (primary_chunks ++ secondary_chunks)
  (all_chunks.take top_k, [qPrimary, qSecondary])

/-! Context formatter (`RetrievalService._format_context` and helpers). -/

/-- the `"\n"` line separator used by `"\n".join(lines)`. -/
def nl : Str := ['\n']

/-- the metadata key `"date"`. -/
def dateKey : Str := "date".toList

/-- the metadata key `"title"`. -/
def titleKey : Str := "title".toList

/-- the `"Unknown date"` default. -/
def unknownDateStr : Str := "Unknown date".toList

/-- the `"Untitled"` default. -/
def untitledStr : Str := "Untitled".toList

/-- header line of the private-journal section. -/
def journalHeader : Str := "=== FROM YOUR PRIVATE JOURNAL ===".toList

/-- description line of the private-journal section (ends in a newline). -/
def journalDesc : Str :=
  "(Personal reflections written for yourself, not for others)\n".toList

/-- header line of the public-blog section. -/
def blogHeader : Str := "=== FROM YOUR PUBLIC WRITING ===".toList

/-- description line of the public-blog section (ends in a newline). -/
def blogDesc : Str :=
  "(Blog posts and essays you published for others to read)\n".toList

/-- header line of the wisdom section (the code includes the trailing
newline in the same list entry). -/
def wisdomHeader : Str := "=== FROM CONTEMPLATIVE TRADITIONS ===\n".toList

/-- the wisdom header without its trailing newline (used to reason about
substring occurrences across the newline-joined output). -/
def wisdomHeaderCore : Str := "=== FROM CONTEMPLATIVE TRADITIONS ===".toList

/-- the fixed no-context sentinel `"[No relevant context found]"`. -/
def noContextStr : Str := "[No relevant context found]".toList

/-- the bracketed label line of one journal chunk, for date renderer `fd`
(an opaque model of `_format_date`). -/
def journalLabel (fd : Str → Str) (c : RetrievedChunk) : Str :=
  "[From your personal journal - ".toList
    ++ fd (dictGetD c.metadata dateKey unknownDateStr) ++ "]".toList

/-- the bracketed label line of one blog chunk. -/
def blogLabel (fd : Str → Str) (c : RetrievedChunk) : Str :=
  "[From your blog post \"".toList ++ dictGetD c.metadata titleKey untitledStr
    ++ "\" - ".toList ++ fd (dictGetD c.metadata dateKey unknownDateStr) ++ "]".toList

/-- the bracketed label line of one wisdom chunk (`tradition` is included
when truthy, i.e. non-empty). -/
def wisdomLabel (c : RetrievedChunk) : Str :=
  let src := dictGetD c.metadata "source".toList "Unknown source".toList
  let tradition := dictGetD c.metadata "tradition".toList []
  if tradition ≠ [] then
    "[".toList ++ tradition ++ ": ".toList ++ src ++ "]".toList
  else "[".toList ++ src ++ "]".toList

/-- the `lines` list built by `_format_journal_chunks`. -/
def journalLines (fd : Str → Str) (chunks : List RetrievedChunk) : List Str :=
  journalHeader :: journalDesc ::
    (chunks.map (fun c => [journalLabel fd c, pyStrip c.text, []])).flatten

/-- `RetrievalService._format_journal_chunks`. -/
def format_journal_chunks (fd : Str → Str) (chunks : List RetrievedChunk) : Str :=
  joinSep nl (journalLines fd chunks)

/-- `RetrievalService._format_blog_chunks`. -/
def format_blog_chunks (fd : Str → Str) (chunks : List RetrievedChunk) : Str :=
  joinSep nl (blogHeader :: blogDesc ::
    (chunks.map (fun c => [blogLabel fd c, pyStrip c.text, []])).flatten)

/-- `RetrievalService._format_wisdom_chunks`. -/
def format_wisdom_chunks (chunks : List RetrievedChunk) : Str :=
  joinSep nl (wisdomHeader ::
    (chunks.map (fun c => [wisdomLabel c, pyStrip c.text, []])).flatten)

/-- the `sections` list built by `_format_context`: one section per
non-empty group, in the fixed order journal, blog, wisdom. -/
def sectionsOf (fd : Str → Str)
    (journal_chunks blog_chunks wisdom_chunks : List RetrievedChunk) : List Str :=
  (if journal_chunks.isEmpty then [] else [format_journal_chunks fd journal_chunks])
    ++ (if blog_chunks.isEmpty then [] else [format_blog_chunks fd blog_chunks])
    ++ (if wisdom_chunks.isEmpty then [] else [format_wisdom_chunks wisdom_chunks])

/-- `RetrievalService._format_context`. -/
def format_context (fd : Str → Str)
    (journal_chunks blog_chunks wisdom_chunks : List RetrievedChunk) : Str :=
  let sections := sectionsOf fd journal_chunks blog_chunks wisdom_chunks
  if sections.isEmpty then noContextStr else joinSep nlnl sections

/-! `RetrievalService.retrieve`. -/

/-- `RetrievalResult`. -/
structure RetrievalResult where
  query : Str
  chunks : List RetrievedChunk
  formatted_context : Str
  journal_chunks : List RetrievedChunk
  blog_chunks : List RetrievedChunk
  wisdom_chunks : List RetrievedChunk
  detected_priority : SourcePriority
deriving DecidableEq, Repr

/-- Python truthiness of an optional string (`if source_filter:` and
`if top_k:` style tests): `None` and the empty string are falsy. -/
def optStrTruthy : Option Str → Bool
  | none => false
  | some s => !s.isEmpty

/-- `RetrievalService.retrieve(query, top_k, source_filter)`.
`self_top_k` is the service's default `top_k`; `top_k? = some 0` falls back
to it because `top_k or self.top_k` treats `0` as falsy.  `fd` is the
opaque date renderer threaded to the formatter.  Besides the
`RetrievalResult`, the model returns the list of store queries issued,
in order — the observable behind the claims about query allocation.
The query embedding (computed before the branch) is fixed per call and
implicit in `store`. -/
def retrieve (store : Store) (fd : Str → Str) (self_top_k : Nat) (query : Str)
    (top_k? : Option Nat) (source_filter : Option Str) :
    RetrievalResult × List StoreQuery :=
  let top_k := match top_k? with
    | none => self_top_k
    | some k => if k = 0 then self_top_k else k
  let detected_priority := detect_source_priority query
  let pair :=
    if optStrTruthy source_filter then
      let whereVal := pyLower (source_filter.getD [])
      let q : StoreQuery := ⟨top_k, some whereVal⟩
      (results_to_chunks (store q), [q])
    else if detected_priority = SourcePriority.BLOG then
      prioritized_search store top_k wordpressStr
    else if detected_priority = SourcePriority.JOURNAL then
      prioritized_search store top_k dayoneStr
    else balanced_search store top_k
  let chunks := pair.1
  let journal_chunks := chunks.filter (fun c => RetrievedChunk.is_journal c)
  let blog_chunks := chunks.filter (fun c => RetrievedChunk.is_blog c)
  let wisdom_chunks := chunks.filter (fun c => RetrievedChunk.is_wisdom c)
  ({ query := query, chunks := chunks,
     formatted_context := format_context fd journal_chunks blog_chunks wisdom_chunks,
     journal_chunks := journal_chunks, blog_chunks := blog_chunks,
     wisdom_chunks := wisdom_chunks, detected_priority := detected_priority },
   pair.2)

/-! the `/search` HTTP handler's source-filter validation
(`backend/app/main.py`), modelled from the point where the vector store
is known to be non-empty. -/

/-- the `valid_sources = ["dayone", "wordpress"]` list of the handler. -/
def valid_sources : List Str := [dayoneStr, wordpressStr]

/-- outcome of the `/search` handler slice. -/
inductive EndpointResult where
  | httpError (status : Nat)
  | success (rows : List SearchRow)
deriving DecidableEq, Repr

/-- the `/search` handler after vector-store initialization: 404 on an
empty collection; for a truthy `source` parameter, reject with 400 when
`source.lower()` is not a valid source — before the embedding and the
store query — and otherwise search with the lowercased equality filter.
As in `retrieve`, the returned list logs the store queries issued. -/
def search_endpoint (store : Store) (total_documents : Nat) (limit : Nat)
    (source : Option Str) : EndpointResult × List StoreQuery :=
  if total_documents = 0 then (EndpointResult.httpError 404, [])
  else if optStrTruthy source then
    let s := pyLower (source.getD [])
    if s ∈ valid_sources then
      let q : StoreQuery := ⟨limit, some s⟩
      (EndpointResult.success (store q), [q])
    else (EndpointResult.httpError 400, [])
  else
    let q : StoreQuery := ⟨limit, none⟩
    (EndpointResult.success (store q), [q])

/-! the spec's wording of the prioritized allocation, for comparison with
the code's `primary_count` (refinement check for the `round` claim). -/

/-- Modelled from the spec's words `primary_count = max(1, round(top_k * 0.8))`
(spec §4.3), to be compared with the code's `primary_count`.  Python's
`round` is round-half-to-even, but `top_k * 0.8` is never a half-integer
(the fractional part of `4k/5` is a multiple of a fifth, and the float
value differs from `4k/5` by far less than the distance to any half),
so rounding equals `⌊4k/5 + 1/2⌋ = (8·top_k + 5) / 10` in natural
division. -/
def spec_primary_count (top_k : Nat) : Nat :=
  max 1 ((8 * top_k + 5) / 10)

/-! Concrete inputs used by witnesses and counterexamples. -/

/-- a 240-character paragraph, estimated at 60 tokens. -/
def c5para : Str := List.replicate 240 'a'

/-- a three-paragraph document of 60 estimated tokens per paragraph. -/
def c5text : Str := c5para ++ nlnl ++ c5para ++ nlnl ++ c5para

/-- the whitespace-only input `"   \n\n  "` of the spec's empty-input property. -/
def wsInput : Str := "   \n\n  ".toList

/-- a sample journal result row. -/
def rowJ1 : SearchRow :=
  { id := "j1".toList, document := "meditated at dawn".toList,
    metadata := [(sourceTypeKey, dayoneStr), (dateKey, "2024-01-15".toList)],
    distance := 1/4 }

/-- a second sample journal result row. -/
def rowJ2 : SearchRow :=
  { id := "j2".toList, document := "a quiet walk".toList,
    metadata := [(sourceTypeKey, dayoneStr), (dateKey, "2024-02-02".toList)],
    distance := 1/2 }

/-- a sample blog result row. -/
def rowB1 : SearchRow :=
  { id := "b1".toList, document := "on attention".toList,
    metadata := [(sourceTypeKey, wordpressStr), (titleKey, "Attention".toList)],
    distance := 1/4 }

/-- a sample wisdom result row. -/
def rowW1 : SearchRow :=
  { id := "w1".toList, document := "the way is near".toList,
    metadata := [(sourceTypeKey, wisdomStr)], distance := 3/8 }

/-- a store with one journal row, one blog row and one wisdom row, honouring
both the equality filter and the `n_results` bound. -/
def storeSmall : Store := fun q =>
  (if q.source_where = some dayoneStr then [rowJ1, rowJ2]
   else if q.source_where = some wordpressStr then [rowB1]
   else if q.source_where = some wisdomStr then [rowW1]
   else if q.source_where = none then [rowJ1, rowB1, rowW1, rowJ2]
   else []).take q.n_results

/-- the identity date renderer (a legitimate instance of the opaque
`_format_date` model: it passes raw strings through). -/
def fdRaw : Str → Str := fun s => s

/-- a neutral query with no source keywords. -/
def queryNeutral : Str := "what did I think about attention".toList

/-- a query asking about the journal. -/
def queryJournal : Str := "what does my journal say".toList

/-- a query asking about the blog. -/
def queryBlog : Str := "what did my blog say".toList

/-- an unrecognized source-filter value. -/
def bananaStr : Str := "banana".toList

/-- a sample retrieved chunk for the formatter witness. -/
def chunkA : RetrievedChunk :=
  { id := "j1_chunk_0".toList, text := "  meditated at dawn\ntoday  ".toList,
    metadata := [(sourceTypeKey, dayoneStr), (dateKey, "2024-01-15".toList)],
    distance := 1/4, relevance_score := 3/4, source_type := dayoneStr }

/-- the merged pre-sort chunk list of balanced search: the journal
sub-query's chunks first (it is issued first), then the blog sub-query's. -/
def balancedMerged (store : Store) (top_k : Nat) : List RetrievedChunk :=
  results_to_chunks (store ⟨per_source top_k, some dayoneStr⟩)
    ++ results_to_chunks (store ⟨per_source top_k, some wordpressStr⟩)

/-! General helper lemmas. -/

theorem joinSep_one (sep : Str) (x : Str) : joinSep sep [x] = x := rfl

theorem joinSep_cons_cons (sep x y : Str) (ys : List Str) :
    joinSep sep (x :: y :: ys) = x ++ sep ++ joinSep sep (y :: ys) := rfl

/-! Claim C3: the intent detector. -/

/-- Claim C3: for every query, detection counts the word-boundary,
case-insensitive keyword matches of the two fixed sets and returns
blog-priority iff blog-matches exceed journal-matches and are positive,
journal-priority iff journal-matches exceed blog-matches and are positive,
and none in every other case (including the 0-0 tie). -/
theorem C3_detect_cases (query : Str) :
    (detect_source_priority query = SourcePriority.BLOG ↔
      count_keyword_matches JOURNAL_KEYWORDS query < count_keyword_matches BLOG_KEYWORDS query ∧
      0 < count_keyword_matches BLOG_KEYWORDS query) ∧
    (detect_source_priority query = SourcePriority.JOURNAL ↔
      count_keyword_matches BLOG_KEYWORDS query < count_keyword_matches JOURNAL_KEYWORDS query ∧
      0 < count_keyword_matches JOURNAL_KEYWORDS query) ∧
    (detect_source_priority query = SourcePriority.NONE ↔
      ¬(count_keyword_matches JOURNAL_KEYWORDS query < count_keyword_matches BLOG_KEYWORDS query ∧
          0 < count_keyword_matches BLOG_KEYWORDS query) ∧
      ¬(count_keyword_matches BLOG_KEYWORDS query < count_keyword_matches JOURNAL_KEYWORDS query ∧
          0 < count_keyword_matches JOURNAL_KEYWORDS query)) := by
  unfold detect_source_priority
  simp only []
  split_ifs with h1 h2 <;> simp_all <;> omega

/-! Claim C4: chunker passthrough. -/

/-- Claim C4: any text whose token estimate (length over four, rounded
down) is at most `max_tokens` is returned as the single-element sequence
containing exactly that text, untrimmed. -/
theorem C4_passthrough (text : Str) (target_tokens max_tokens : Nat)
    (h : estimate_tokens text ≤ max_tokens) :
    chunk_text text target_tokens max_tokens = [text] := by
  unfold chunk_text
  rw [if_pos h]

theorem C4_passthrough_witness :
    estimate_tokens "  hello \n\n world  ".toList ≤ 800 ∧
    chunk_text "  hello \n\n world  ".toList 650 800 = ["  hello \n\n world  ".toList] :=
  ⟨by decide, C4_passthrough _ 650 800 (by decide)⟩

/-! Claim C8: chunker on empty and whitespace-only input. -/

/-- Claim C8 counterexample: `chunk_text` on the empty string returns the
one-element list containing the empty string (an empty-string chunk), and
on the whitespace-only input returns that input itself as a single chunk
(one chunk that is not the empty string) — both by the passthrough branch. -/
theorem C8_counterexample :
    chunk_text ([] : Str) 650 800 = [[]] ∧
    chunk_text wsInput 650 800 = [wsInput] ∧ wsInput ≠ [] := by decide

/-- Claim C8 as amended: inputs whose token estimate is within
`max_tokens` — which includes the empty string and the whitespace-only
input — are passed through as one (possibly empty or all-whitespace)
chunk, and the zero-usable-chunks guarantee holds at the entry-processing
level, where `process_entry` returns zero chunks for empty or
whitespace-only entry text. -/
theorem C8_amended (ws : Str) (target_tokens max_tokens : Nat)
    (hws : pyStrip ws = []) (hm : estimate_tokens ws ≤ max_tokens) :
    chunk_text ws target_tokens max_tokens = [ws] ∧
    process_entry_chunks ws = [] := by
  constructor
  · unfold chunk_text
    rw [if_pos hm]
  · unfold process_entry_chunks
    rw [if_pos (Or.inr hws)]

theorem C8_amended_witness :
    (pyStrip wsInput = [] ∧ estimate_tokens wsInput ≤ 800) ∧
    (chunk_text wsInput 650 800 = [wsInput] ∧ process_entry_chunks wsInput = []) :=
  ⟨⟨by decide, by decide⟩, C8_amended wsInput 650 800 (by decide) (by decide)⟩

/-! Claim C5: the three-paragraph scenario. -/

/-- a non-blank paragraph that fits within `max_tokens` but whose addition
would push the accumulated estimate over `target_tokens` closes the current
chunk when the accumulator is non-empty, and accumulates otherwise. -/
theorem stepPara_overflow (target_tokens max_tokens : Nat) (st : ChunkState) (p : Str)
    (hstrip : pyStrip p = p) (hne : p ≠ [])
    (hm : estimate_tokens p ≤ max_tokens)
    (ht : target_tokens < st.current_tokens + estimate_tokens p) :
    stepPara target_tokens max_tokens st p =
      if st.current_chunk = [] then
        ⟨st.chunks, st.current_chunk ++ [p], st.current_tokens + estimate_tokens p⟩
      else
        ⟨st.chunks ++ [joinSep nlnl st.current_chunk], [p], estimate_tokens p⟩ := by
  unfold stepPara
  rw [hstrip, if_neg hne, if_neg (by omega)]
  unfold stepUnit
  by_cases hcur : st.current_chunk = []
  · rw [if_neg (by simp [hcur]), if_pos hcur]
  · rw [if_pos ⟨ht, hcur⟩, if_neg hcur]

/-- Claim C5 counterexample: on the claim's own scenario — three
paragraphs of 60 estimated tokens each, `target_tokens = 50`,
`max_tokens = 100` — `chunk_text` returns three chunks, one paragraph
each, not two chunks with the first two paragraphs combined. -/
theorem C5_counterexample :
    estimate_tokens c5para = 60 ∧
    pySplit nlnl c5text = [c5para, c5para, c5para] ∧
    chunk_text c5text 50 100 = [c5para, c5para, c5para] ∧
    (chunk_text c5text 50 100).length ≠ 2 := by decide

/-- Claim C5 as amended: for a three-paragraph document whose total
estimate exceeds `max_tokens`, each paragraph being stripped, non-blank,
within `max_tokens` but alone exceeding `target_tokens` (as 60-token
paragraphs with target 50 and max 100 are), the accumulate/close-on-overflow
rule closes the chunk at every paragraph, so `chunk_text` returns exactly
three chunks, each containing one paragraph alone. -/
theorem C5_amended (text p1 p2 p3 : Str) (target_tokens max_tokens : Nat)
    (hsplit : pySplit nlnl text = [p1, p2, p3])
    (htext : max_tokens < estimate_tokens text)
    (hstrip1 : pyStrip p1 = p1) (hstrip2 : pyStrip p2 = p2) (hstrip3 : pyStrip p3 = p3)
    (hne1 : p1 ≠ []) (hne2 : p2 ≠ []) (hne3 : p3 ≠ [])
    (ht1 : target_tokens < estimate_tokens p1)
    (ht2 : target_tokens < estimate_tokens p2)
    (ht3 : target_tokens < estimate_tokens p3)
    (hm1 : estimate_tokens p1 ≤ max_tokens)
    (hm2 : estimate_tokens p2 ≤ max_tokens)
    (hm3 : estimate_tokens p3 ≤ max_tokens) :
    chunk_text text target_tokens max_tokens = [p1, p2, p3] := by
  have s1 : stepPara target_tokens max_tokens ⟨[], [], 0⟩ p1
      = ⟨[], [p1], estimate_tokens p1⟩ := by
    rw [stepPara_overflow _ _ _ _ hstrip1 hne1 hm1 (by simpa using ht1)]
    simp
  have s2 : stepPara target_tokens max_tokens ⟨[], [p1], estimate_tokens p1⟩ p2
      = ⟨[p1], [p2], estimate_tokens p2⟩ := by
    rw [stepPara_overflow _ _ _ _ hstrip2 hne2 hm2 (by simp; omega)]
    simp [joinSep_one]
  have s3 : stepPara target_tokens max_tokens ⟨[p1], [p2], estimate_tokens p2⟩ p3
      = ⟨[p1, p2], [p3], estimate_tokens p3⟩ := by
    rw [stepPara_overflow _ _ _ _ hstrip3 hne3 hm3 (by simp; omega)]
    simp [joinSep_one]
  unfold chunk_text
  rw [if_neg (by omega), hsplit]
  show (if _ then _ else _ : List Str) = _
  rw [List.foldl_cons, List.foldl_cons, List.foldl_cons, List.foldl_nil, s1, s2, s3]
  rw [if_pos (by simp)]
  simp [joinSep_one]

theorem C5_amended_witness :
    (pySplit nlnl c5text = [c5para, c5para, c5para] ∧
      100 < estimate_tokens c5text ∧ pyStrip c5para = c5para ∧ c5para ≠ [] ∧
      50 < estimate_tokens c5para ∧ estimate_tokens c5para ≤ 100) ∧
    chunk_text c5text 50 100 = [c5para, c5para, c5para] :=
  ⟨⟨by decide, by decide, by decide, by decide, by decide, by decide⟩,
    C5_amended c5text c5para c5para c5para 50 100 (by decide) (by decide)
      (by decide) (by decide) (by decide) (by decide) (by decide) (by decide)
      (by decide) (by decide) (by decide) (by decide) (by decide) (by decide)⟩

/-! Sorting helper lemmas. -/

/-- any take of the stable descending sort is sorted by `chunkGE`. -/
theorem sorted_take_sortByRelevanceDesc (l : List RetrievedChunk) (n : Nat) :
    List.Sorted chunkGE ((sortByRelevanceDesc l).take n) :=
  List.Pairwise.sublist (List.take_sublist n _)
    (List.sorted_insertionSort chunkGE l)

/-- inserting `c` into `l` passes only over strictly more relevant
elements, so the sublist at any given relevance score gains `c` at the
front when `c` has that score and is otherwise unchanged. -/
theorem filter_orderedInsert_relevance (s : ℚ) (c : RetrievedChunk)
    (l : List RetrievedChunk) :
    (List.orderedInsert chunkGE c l).filter (fun x => decide (x.relevance_score = s))
      = if c.relevance_score = s
        then c :: l.filter (fun x => decide (x.relevance_score = s))
        else l.filter (fun x => decide (x.relevance_score = s)) := by
  induction l with
  | nil =>
    by_cases hc : c.relevance_score = s <;> simp [List.orderedInsert, hc]
  | cons b t ih =>
    by_cases hcb : chunkGE c b
    · rw [show List.orderedInsert chunkGE c (b :: t) = c :: b :: t from by
        simp [List.orderedInsert, hcb]]
      by_cases hc : c.relevance_score = s <;> simp [List.filter_cons, hc]
    · rw [show List.orderedInsert chunkGE c (b :: t)
          = b :: List.orderedInsert chunkGE c t from by
        simp [List.orderedInsert, hcb]]
      by_cases hc : c.relevance_score = s
      · have hb : ¬ b.relevance_score = s := by
          intro hb
          exact hcb (by simp [chunkGE, hb, hc])
        simp [List.filter_cons, hb, hc, ih]
      · by_cases hb : b.relevance_score = s <;>
          simp [List.filter_cons, hb, hc, ih]

/-- stability of the modelled sort: at every relevance score, the sorted
list lists the chunks with that score in their original (insertion)
order. -/
theorem filter_sortByRelevanceDesc (s : ℚ) (l : List RetrievedChunk) :
    (sortByRelevanceDesc l).filter (fun x => decide (x.relevance_score = s))
      = l.filter (fun x => decide (x.relevance_score = s)) := by
  induction l with
  | nil => rfl
  | cons c t ih =>
    show (List.orderedInsert chunkGE c (List.insertionSort chunkGE t)).filter _ = _
    rw [filter_orderedInsert_relevance]
    by_cases hc : c.relevance_score = s <;>
      simp only [sortByRelevanceDesc] at ih <;>
      simp [List.filter_cons, hc, ih]

/-! Claim C2: prioritized search allocation. -/

/-- Claim C2 counterexample: at `top_k = 7` with journal priority the code
allocates `max(1, int(7 * 0.8)) = 5` results to the journal query, while
the claim's formula `max(1, round(7 * 0.8))` gives 6. -/
theorem C2_counterexample :
    primary_count 7 = 5 ∧ spec_primary_count 7 = 6 ∧
    detect_source_priority queryJournal = SourcePriority.JOURNAL ∧
    (retrieve storeSmall fdRaw 10 queryJournal (some 7) none).2
      = [⟨5, some dayoneStr⟩, ⟨2, some wordpressStr⟩] := by decide

/-- Claim C2 as amended: with no explicit filter, a detected priority of
journal or blog and `top_k ≥ 1`, `retrieve` allocates
`primary_count = max(1, ⌊top_k * 0.8⌋)` (truncation by `int()`, not
rounding) to the filtered query on the detected primary source and
`secondary_count = max(1, top_k - primary_count)` to the filtered query
on the other personal source, issues exactly those two filtered queries
in that order, then merges both result lists, sorts them by descending
relevance score and truncates to `top_k`; in particular for `top_k = 10`
the split is 8 and 2. -/
theorem C2_prioritized (store : Store) (fd : Str → Str) (self_top_k : Nat)
    (query : Str) (top_k : Nat) (primary_source other_source : Str)
    (hk : 1 ≤ top_k)
    (hp : (detect_source_priority query = SourcePriority.JOURNAL
            ∧ primary_source = dayoneStr ∧ other_source = wordpressStr)
        ∨ (detect_source_priority query = SourcePriority.BLOG
            ∧ primary_source = wordpressStr ∧ other_source = dayoneStr)) :
    (retrieve store fd self_top_k query (some top_k) none).2
      = [⟨primary_count top_k, some primary_source⟩,
         ⟨secondary_count top_k, some other_source⟩]
    ∧ (retrieve store fd self_top_k query (some top_k) none).1.chunks
      = (sortByRelevanceDesc
          (results_to_chunks (store ⟨primary_count top_k, some primary_source⟩)
            ++ results_to_chunks (store ⟨secondary_count top_k, some other_source⟩))).take
          top_k
    ∧ List.Sorted chunkGE (retrieve store fd self_top_k query (some top_k) none).1.chunks
    ∧ primary_count 10 = 8 ∧ secondary_count 10 = 2 := by
  have hk0 : ¬ top_k = 0 := by omega
  rcases hp with ⟨hj, rfl, rfl⟩ | ⟨hb, rfl, rfl⟩
  · unfold retrieve prioritized_search
    rw [hj]
    simp +decide only [optStrTruthy, hk0, if_true, if_false, and_true, true_and]
    exact sorted_take_sortByRelevanceDesc _ _
  · unfold retrieve prioritized_search
    rw [hb]
    simp +decide only [optStrTruthy, hk0, if_true, if_false, and_true, true_and]
    exact sorted_take_sortByRelevanceDesc _ _

theorem C2_prioritized_witness :
    ((1 ≤ 7 ∧ detect_source_priority queryJournal = SourcePriority.JOURNAL) ∧
    ((retrieve storeSmall fdRaw 10 queryJournal (some 7) none).2
      = [⟨primary_count 7, some dayoneStr⟩, ⟨secondary_count 7, some wordpressStr⟩]
    ∧ (retrieve storeSmall fdRaw 10 queryJournal (some 7) none).1.chunks
      = (sortByRelevanceDesc
          (results_to_chunks (storeSmall ⟨primary_count 7, some dayoneStr⟩)
            ++ results_to_chunks (storeSmall ⟨secondary_count 7, some wordpressStr⟩))).take 7
    ∧ List.Sorted chunkGE (retrieve storeSmall fdRaw 10 queryJournal (some 7) none).1.chunks
    ∧ primary_count 10 = 8 ∧ secondary_count 10 = 2)) ∧
    ((1 ≤ 9 ∧ detect_source_priority queryBlog = SourcePriority.BLOG) ∧
    ((retrieve storeSmall fdRaw 10 queryBlog (some 9) none).2
      = [⟨primary_count 9, some wordpressStr⟩, ⟨secondary_count 9, some dayoneStr⟩]
    ∧ (retrieve storeSmall fdRaw 10 queryBlog (some 9) none).1.chunks
      = (sortByRelevanceDesc
          (results_to_chunks (storeSmall ⟨primary_count 9, some wordpressStr⟩)
            ++ results_to_chunks (storeSmall ⟨secondary_count 9, some dayoneStr⟩))).take 9
    ∧ List.Sorted chunkGE (retrieve storeSmall fdRaw 10 queryBlog (some 9) none).1.chunks
    ∧ primary_count 10 = 8 ∧ secondary_count 10 = 2)) :=
  ⟨⟨⟨by decide, by decide⟩,
    C2_prioritized storeSmall fdRaw 10 queryJournal 7 dayoneStr wordpressStr
      (by decide) (Or.inl ⟨by decide, rfl, rfl⟩)⟩,
   ⟨⟨by decide, by decide⟩,
    C2_prioritized storeSmall fdRaw 10 queryBlog 9 wordpressStr dayoneStr
      (by decide) (Or.inr ⟨by decide, rfl, rfl⟩)⟩⟩

/-! Claim C10: lowercasing of the explicit source filter. -/

theorem char_toNat_ofNat_small (n : Nat) (h : n < 55296) :
    (Char.ofNat n).toNat = n := by
  have hv : n.isValidChar := Or.inl h
  rw [Char.ofNat, dif_pos hv]
  rfl

theorem lowerChar_idem (c : Char) : lowerChar (lowerChar c) = lowerChar c := by
  unfold lowerChar
  by_cases h : 65 ≤ c.toNat ∧ c.toNat ≤ 90
  · rw [if_pos h, if_neg]
    rw [char_toNat_ofNat_small (c.toNat + 32) (by omega)]
    omega
  · rw [if_neg h, if_neg h]

theorem pyLower_idem (s : Str) : pyLower (pyLower s) = pyLower s := by
  induction s with
  | nil => rfl
  | cons c t ih =>
    show lowerChar (lowerChar c) :: pyLower (pyLower t) = _
    rw [lowerChar_idem, ih]
    rfl

/-- Claim C10: `retrieve` lowercases the explicit source filter before
using it as the store's equality filter, so a filter and its lowercased
form issue the same store query and produce the same result — the casing
of the explicit filter argument never affects the outcome. -/
theorem C10_filter_lowercased (store : Store) (fd : Str → Str)
    (self_top_k : Nat) (query : Str) (top_k? : Option Nat) (f : Str) :
    retrieve store fd self_top_k query top_k? (some f)
      = retrieve store fd self_top_k query top_k? (some (pyLower f)) := by
  have hempty : (pyLower f).isEmpty = f.isEmpty := by cases f <;> rfl
  unfold retrieve
  simp only [optStrTruthy, Option.getD, hempty, pyLower_idem]

/-! Claim C6: validation of the explicit source filter. -/

/-- Claim C6 counterexample: `retrieve` called with the unrecognized
explicit source filter `"banana"` is not rejected: it issues a filtered
vector-store query carrying that very value (and the query embedding is
computed before it), returning an ordinary empty result. -/
theorem C6_counterexample :
    pyLower bananaStr ∉ valid_sources ∧
    (retrieve storeSmall fdRaw 10 queryNeutral (some 5) (some bananaStr)).2
      = [⟨5, some bananaStr⟩] ∧
    (retrieve storeSmall fdRaw 10 queryNeutral (some 5) (some bananaStr)).1.chunks
      = [] := by decide

/-- Claim C6 as amended: `retrieve` itself performs no validation of the
explicit source filter — any truthy value is lowercased and forwarded as
the store's equality filter, and the collaborators are called as usual;
rejection of unrecognized values happens only at the HTTP `/search`
boundary, which returns a 400 error and issues no store query (nor the
embedding call that follows validation) when the lowercased value is not
`dayone` or `wordpress`. -/
theorem C6_amended (store : Store) (fd : Str → Str) (self_top_k : Nat)
    (query : Str) (top_k : Nat) (hk : 1 ≤ top_k) (f : Str) (hf : f ≠ [])
    (total_documents limit : Nat) (hdocs : total_documents ≠ 0)
    (hinvalid : pyLower f ∉ valid_sources) :
    (retrieve store fd self_top_k query (some top_k) (some f)).2
        = [⟨top_k, some (pyLower f)⟩]
    ∧ (retrieve store fd self_top_k query (some top_k) (some f)).1.chunks
        = results_to_chunks (store ⟨top_k, some (pyLower f)⟩)
    ∧ search_endpoint store total_documents limit (some f)
        = (EndpointResult.httpError 400, []) := by
  have hk0 : ¬ top_k = 0 := by omega
  have htr : optStrTruthy (some f) = true := by
    cases f with
    | nil => exact absurd rfl hf
    | cons c t => rfl
  unfold retrieve search_endpoint
  simp only [htr, Option.getD, if_neg hk0, if_neg hdocs, if_neg hinvalid,
    if_true, if_false, true_and, and_true]

theorem C6_amended_witness :
    (1 ≤ 5 ∧ bananaStr ≠ [] ∧ (4 : Nat) ≠ 0 ∧ pyLower bananaStr ∉ valid_sources) ∧
    ((retrieve storeSmall fdRaw 10 queryNeutral (some 5) (some bananaStr)).2
        = [⟨5, some (pyLower bananaStr)⟩]
    ∧ (retrieve storeSmall fdRaw 10 queryNeutral (some 5) (some bananaStr)).1.chunks
        = results_to_chunks (storeSmall ⟨5, some (pyLower bananaStr)⟩)
    ∧ search_endpoint storeSmall 4 5 (some bananaStr)
        = (EndpointResult.httpError 400, [])) :=
  ⟨⟨by decide, by decide, by decide, by decide⟩,
    C6_amended storeSmall fdRaw 10 queryNeutral 5 (by decide) bananaStr
      (by decide) 4 5 (by decide) (by decide)⟩

/-! Claim C1: balanced search. -/

/-- every chunk built from a source-filtered store result carries that
filter's source type, when the store honours its equality filter. -/
theorem results_source_of_filter (store : Store) (q : StoreQuery) (s : Str)
    (hq : q.source_where = some s)
    (hsrc : ∀ (q : StoreQuery) (s : Str), q.source_where = some s →
        ∀ r ∈ store q, dictGetD r.metadata sourceTypeKey unknownStr = s) :
    ∀ c ∈ results_to_chunks (store q), c.source_type = s := by
  intro c hc
  rcases List.mem_map.mp hc with ⟨r, hr, rfl⟩
  exact hsrc q s hq r hr

/-- storeSmall respects the `n_results` bound. -/
theorem storeSmall_len (q : StoreQuery) : (storeSmall q).length ≤ q.n_results := by
  have h := List.length_take q.n_results
    (if q.source_where = some dayoneStr then [rowJ1, rowJ2]
     else if q.source_where = some wordpressStr then [rowB1]
     else if q.source_where = some wisdomStr then [rowW1]
     else if q.source_where = none then [rowJ1, rowB1, rowW1, rowJ2]
     else [])
  show (List.take q.n_results _).length ≤ q.n_results
  omega

/-- storeSmall honours the source equality filter. -/
theorem storeSmall_src (q : StoreQuery) (s : Str) (hq : q.source_where = some s) :
    ∀ r ∈ storeSmall q, dictGetD r.metadata sourceTypeKey unknownStr = s := by
  intro r hr
  have hr' : r ∈
      (if q.source_where = some dayoneStr then [rowJ1, rowJ2]
       else if q.source_where = some wordpressStr then [rowB1]
       else if q.source_where = some wisdomStr then [rowW1]
       else if q.source_where = none then [rowJ1, rowB1, rowW1, rowJ2]
       else []) :=
    List.take_subset _ _ hr
  by_cases h1 : q.source_where = some dayoneStr
  · rw [if_pos h1] at hr'
    rw [h1] at hq
    cases Option.some.inj hq
    simp only [List.mem_cons, List.not_mem_nil, or_false] at hr'
    rcases hr' with rfl | rfl <;> decide
  · by_cases h2 : q.source_where = some wordpressStr
    · rw [if_neg h1, if_pos h2] at hr'
      rw [h2] at hq
      cases Option.some.inj hq
      simp only [List.mem_cons, List.not_mem_nil, or_false] at hr'
      rcases hr' with rfl
      decide
    · by_cases h3 : q.source_where = some wisdomStr
      · rw [if_neg h1, if_neg h2, if_pos h3] at hr'
        rw [h3] at hq
        cases Option.some.inj hq
        simp only [List.mem_cons, List.not_mem_nil, or_false] at hr'
        rcases hr' with rfl
        decide
      · rw [if_neg h1, if_neg h2, if_neg h3, if_neg (by simp [hq])] at hr'
        cases hr'

/-- Claim C1: with no explicit filter, detected priority `none` and
`top_k ≥ 1`, `retrieve` issues exactly two filtered store queries — the
journal one first, then the blog one, each requesting
`max(1, top_k / 2)` results — and returns the merged list sorted by
descending relevance score (ties kept stably in insertion order, journal
first), truncated to at most `top_k` chunks; when the store honours the
filters and the `n_results` bounds, the result therefore holds at most
`max(1, top_k / 2)` chunks from each personal source. -/
theorem C1_balanced (store : Store) (fd : Str → Str) (self_top_k : Nat)
    (query : Str) (top_k : Nat) (hk : 1 ≤ top_k)
    (hnone : detect_source_priority query = SourcePriority.NONE)
    (hlen : ∀ q : StoreQuery, (store q).length ≤ q.n_results)
    (hsrc : ∀ (q : StoreQuery) (s : Str), q.source_where = some s →
        ∀ r ∈ store q, dictGetD r.metadata sourceTypeKey unknownStr = s) :
    (retrieve store fd self_top_k query (some top_k) none).2
      = [⟨per_source top_k, some dayoneStr⟩, ⟨per_source top_k, some wordpressStr⟩]
    ∧ (retrieve store fd self_top_k query (some top_k) none).1.chunks
      = (sortByRelevanceDesc (balancedMerged store top_k)).take top_k
    ∧ List.Sorted chunkGE (retrieve store fd self_top_k query (some top_k) none).1.chunks
    ∧ (∀ s : ℚ,
        (sortByRelevanceDesc (balancedMerged store top_k)).filter
            (fun c => decide (c.relevance_score = s))
          = (balancedMerged store top_k).filter
              (fun c => decide (c.relevance_score = s)))
    ∧ (retrieve store fd self_top_k query (some top_k) none).1.chunks.length ≤ top_k
    ∧ (retrieve store fd self_top_k query (some top_k) none).1.chunks.countP
        (fun c => RetrievedChunk.is_journal c) ≤ per_source top_k
    ∧ (retrieve store fd self_top_k query (some top_k) none).1.chunks.countP
        (fun c => RetrievedChunk.is_blog c) ≤ per_source top_k := by
  have hk0 : ¬ top_k = 0 := by omega
  have hmain : (retrieve store fd self_top_k query (some top_k) none).2
        = [⟨per_source top_k, some dayoneStr⟩, ⟨per_source top_k, some wordpressStr⟩]
      ∧ (retrieve store fd self_top_k query (some top_k) none).1.chunks
        = (sortByRelevanceDesc (balancedMerged store top_k)).take top_k := by
    unfold retrieve balanced_search balancedMerged
    rw [hnone]
    simp +decide only [optStrTruthy, hk0, if_true, if_false, true_and, and_true]
  have hcount : ∀ p : RetrievedChunk → Bool,
      ((sortByRelevanceDesc (balancedMerged store top_k)).take top_k).countP p
        ≤ (results_to_chunks (store ⟨per_source top_k, some dayoneStr⟩)).countP p
          + (results_to_chunks (store ⟨per_source top_k, some wordpressStr⟩)).countP p := by
    intro p
    calc ((sortByRelevanceDesc (balancedMerged store top_k)).take top_k).countP p
        ≤ (sortByRelevanceDesc (balancedMerged store top_k)).countP p :=
          List.Sublist.countP_le _ (List.take_sublist _ _)
      _ = (balancedMerged store top_k).countP p :=
          (List.perm_insertionSort chunkGE _).countP_eq p
      _ = _ := by unfold balancedMerged; exact List.countP_append _ _ _
  have hJ : (results_to_chunks (store ⟨per_source top_k, some dayoneStr⟩)).countP
      (fun c => RetrievedChunk.is_journal c) ≤ per_source top_k := by
    calc (results_to_chunks (store ⟨per_source top_k, some dayoneStr⟩)).countP _
        ≤ (results_to_chunks (store ⟨per_source top_k, some dayoneStr⟩)).length :=
          List.countP_le_length _
      _ = (store ⟨per_source top_k, some dayoneStr⟩).length := List.length_map _ _
      _ ≤ per_source top_k := hlen _
  have hB : (results_to_chunks (store ⟨per_source top_k, some wordpressStr⟩)).countP
      (fun c => RetrievedChunk.is_blog c) ≤ per_source top_k := by
    calc (results_to_chunks (store ⟨per_source top_k, some wordpressStr⟩)).countP _
        ≤ (results_to_chunks (store ⟨per_source top_k, some wordpressStr⟩)).length :=
          List.countP_le_length _
      _ = (store ⟨per_source top_k, some wordpressStr⟩).length := List.length_map _ _
      _ ≤ per_source top_k := hlen _
  have hJB : (results_to_chunks (store ⟨per_source top_k, some wordpressStr⟩)).countP
      (fun c => RetrievedChunk.is_journal c) = 0 := by
    rw [List.countP_eq_zero]
    intro c hc
    have hsrcc := results_source_of_filter store _ wordpressStr rfl hsrc c hc
    simp [RetrievedChunk.is_journal, hsrcc]
    decide
  have hBJ : (results_to_chunks (store ⟨per_source top_k, some dayoneStr⟩)).countP
      (fun c => RetrievedChunk.is_blog c) = 0 := by
    rw [List.countP_eq_zero]
    intro c hc
    have hsrcc := results_source_of_filter store _ dayoneStr rfl hsrc c hc
    simp [RetrievedChunk.is_blog, hsrcc]
    decide
  refine ⟨hmain.1, hmain.2, ?_, ?_, ?_, ?_, ?_⟩
  · rw [hmain.2]
    exact sorted_take_sortByRelevanceDesc _ _
  · intro s
    exact filter_sortByRelevanceDesc s _
  · rw [hmain.2, List.length_take]
    omega
  · rw [hmain.2]
    have := hcount (fun c => RetrievedChunk.is_journal c)
    omega
  · rw [hmain.2]
    have := hcount (fun c => RetrievedChunk.is_blog c)
    omega

theorem C1_balanced_witness :
    (1 ≤ 4 ∧ detect_source_priority queryNeutral = SourcePriority.NONE) ∧
    ((retrieve storeSmall fdRaw 10 queryNeutral (some 4) none).2
      = [⟨per_source 4, some dayoneStr⟩, ⟨per_source 4, some wordpressStr⟩]
    ∧ (retrieve storeSmall fdRaw 10 queryNeutral (some 4) none).1.chunks
      = (sortByRelevanceDesc (balancedMerged storeSmall 4)).take 4
    ∧ List.Sorted chunkGE (retrieve storeSmall fdRaw 10 queryNeutral (some 4) none).1.chunks
    ∧ (∀ s : ℚ,
        (sortByRelevanceDesc (balancedMerged storeSmall 4)).filter
            (fun c => decide (c.relevance_score = s))
          = (balancedMerged storeSmall 4).filter
              (fun c => decide (c.relevance_score = s)))
    ∧ (retrieve storeSmall fdRaw 10 queryNeutral (some 4) none).1.chunks.length ≤ 4
    ∧ (retrieve storeSmall fdRaw 10 queryNeutral (some 4) none).1.chunks.countP
        (fun c => RetrievedChunk.is_journal c) ≤ per_source 4
    ∧ (retrieve storeSmall fdRaw 10 queryNeutral (some 4) none).1.chunks.countP
        (fun c => RetrievedChunk.is_blog c) ≤ per_source 4) :=
  ⟨⟨by decide, by decide⟩,
    C1_balanced storeSmall fdRaw 10 queryNeutral 4 (by decide) (by decide)
      storeSmall_len storeSmall_src⟩

/-! Claim C9: the per-source partitions. -/

open List in
/-- the three per-source filters of a list whose chunks each carry one of
the three known source types partition it: their concatenation is a
permutation of the list. -/
theorem filter_three_perm (l : List RetrievedChunk)
    (h : ∀ c ∈ l, c.source_type = dayoneStr ∨ c.source_type = wordpressStr ∨
        c.source_type = wisdomStr) :
    l.filter (fun c => RetrievedChunk.is_journal c)
        ++ l.filter (fun c => RetrievedChunk.is_blog c)
        ++ l.filter (fun c => RetrievedChunk.is_wisdom c) ~ l := by
  induction l with
  | nil => rfl
  | cons c t ih =>
    have ht := ih (fun x hx => h x (List.mem_cons_of_mem c hx))
    rcases h c (List.mem_cons_self c t) with hc | hc | hc
    · have e1 : RetrievedChunk.is_journal c = true := by
        simp only [RetrievedChunk.is_journal, hc]; decide
      have e2 : RetrievedChunk.is_blog c = false := by
        simp only [RetrievedChunk.is_blog, hc]; decide
      have e3 : RetrievedChunk.is_wisdom c = false := by
        simp only [RetrievedChunk.is_wisdom, hc]; decide
      simp only [List.filter_cons, e1, e2, e3, if_true, if_false,
        Bool.false_eq_true, List.cons_append]
      exact ht.cons c
    · have e1 : RetrievedChunk.is_journal c = false := by
        simp only [RetrievedChunk.is_journal, hc]; decide
      have e2 : RetrievedChunk.is_blog c = true := by
        simp only [RetrievedChunk.is_blog, hc]; decide
      have e3 : RetrievedChunk.is_wisdom c = false := by
        simp only [RetrievedChunk.is_wisdom, hc]; decide
      simp only [List.filter_cons, e1, e2, e3, if_true, if_false,
        Bool.false_eq_true, List.cons_append]
      calc t.filter (fun c => RetrievedChunk.is_journal c)
            ++ (c :: t.filter (fun c => RetrievedChunk.is_blog c))
            ++ t.filter (fun c => RetrievedChunk.is_wisdom c)
          = t.filter (fun c => RetrievedChunk.is_journal c)
            ++ c :: (t.filter (fun c => RetrievedChunk.is_blog c)
              ++ t.filter (fun c => RetrievedChunk.is_wisdom c)) := by
            simp [List.append_assoc]
        _ ~ c :: (t.filter (fun c => RetrievedChunk.is_journal c)
            ++ (t.filter (fun c => RetrievedChunk.is_blog c)
              ++ t.filter (fun c => RetrievedChunk.is_wisdom c))) := List.perm_middle
        _ = c :: (t.filter (fun c => RetrievedChunk.is_journal c)
            ++ t.filter (fun c => RetrievedChunk.is_blog c)
            ++ t.filter (fun c => RetrievedChunk.is_wisdom c)) := by
            rw [List.append_assoc]
        _ ~ c :: t := ht.cons c
    · have e1 : RetrievedChunk.is_journal c = false := by
        simp only [RetrievedChunk.is_journal, hc]; decide
      have e2 : RetrievedChunk.is_blog c = false := by
        simp only [RetrievedChunk.is_blog, hc]; decide
      have e3 : RetrievedChunk.is_wisdom c = true := by
        simp only [RetrievedChunk.is_wisdom, hc]; decide
      simp only [List.filter_cons, e1, e2, e3, if_true, if_false,
        Bool.false_eq_true, List.cons_append]
      calc t.filter (fun c => RetrievedChunk.is_journal c)
            ++ t.filter (fun c => RetrievedChunk.is_blog c)
            ++ (c :: t.filter (fun c => RetrievedChunk.is_wisdom c))
          ~ c :: (t.filter (fun c => RetrievedChunk.is_journal c)
              ++ t.filter (fun c => RetrievedChunk.is_blog c)
            ++ t.filter (fun c => RetrievedChunk.is_wisdom c)) := List.perm_middle
        _ ~ c :: t := ht.cons c

/-- every chunk of a retrieval result comes from one of the issued store
queries. -/
theorem mem_chunks_retrieve (store : Store) (fd : Str → Str) (self_top_k : Nat)
    (query : Str) (top_k? : Option Nat) (source_filter : Option Str)
    (c : RetrievedChunk)
    (hc : c ∈ (retrieve store fd self_top_k query top_k? source_filter).1.chunks) :
    ∃ q : StoreQuery, c ∈ results_to_chunks (store q) := by
  simp only [retrieve, prioritized_search, balanced_search] at hc
  have hmem : ∀ (l : List RetrievedChunk) (n : Nat),
      c ∈ (sortByRelevanceDesc l).take n → c ∈ l := fun l n h =>
    ((List.perm_insertionSort chunkGE l).mem_iff).mp (List.take_subset _ _ h)
  split at hc
  · exact ⟨_, hc⟩
  · split at hc
    · rcases List.mem_append.mp (hmem _ _ hc) with h | h
      · exact ⟨_, h⟩
      · exact ⟨_, h⟩
    · split at hc
      · rcases List.mem_append.mp (hmem _ _ hc) with h | h
        · exact ⟨_, h⟩
        · exact ⟨_, h⟩
      · rcases List.mem_append.mp (hmem _ _ hc) with h | h
        · exact ⟨_, h⟩
        · exact ⟨_, h⟩

open List in
/-- Claim C9: for every retrieval result — any query, `top_k` and source
filter — over a store whose rows carry one of the three known source
types, the three per-source partitions are the filters of the chunk list,
their union (concatenation) is a permutation of the full chunk list, and
every chunk satisfies exactly one of journal, blog, wisdom. -/
theorem C9_partition (store : Store) (fd : Str → Str) (self_top_k : Nat)
    (query : Str) (top_k? : Option Nat) (source_filter : Option Str)
    (hwf : ∀ (q : StoreQuery), ∀ r ∈ store q,
        dictGetD r.metadata sourceTypeKey unknownStr = dayoneStr ∨
        dictGetD r.metadata sourceTypeKey unknownStr = wordpressStr ∨
        dictGetD r.metadata sourceTypeKey unknownStr = wisdomStr) :
    (retrieve store fd self_top_k query top_k? source_filter).1.journal_chunks
      = (retrieve store fd self_top_k query top_k? source_filter).1.chunks.filter
          (fun c => RetrievedChunk.is_journal c)
    ∧ (retrieve store fd self_top_k query top_k? source_filter).1.blog_chunks
      = (retrieve store fd self_top_k query top_k? source_filter).1.chunks.filter
          (fun c => RetrievedChunk.is_blog c)
    ∧ (retrieve store fd self_top_k query top_k? source_filter).1.wisdom_chunks
      = (retrieve store fd self_top_k query top_k? source_filter).1.chunks.filter
          (fun c => RetrievedChunk.is_wisdom c)
    ∧ ((retrieve store fd self_top_k query top_k? source_filter).1.journal_chunks
        ++ (retrieve store fd self_top_k query top_k? source_filter).1.blog_chunks
        ++ (retrieve store fd self_top_k query top_k? source_filter).1.wisdom_chunks)
      ~ (retrieve store fd self_top_k query top_k? source_filter).1.chunks
    ∧ ∀ c ∈ (retrieve store fd self_top_k query top_k? source_filter).1.chunks,
        (RetrievedChunk.is_journal c = true ∧ RetrievedChunk.is_blog c = false
          ∧ RetrievedChunk.is_wisdom c = false)
      ∨ (RetrievedChunk.is_journal c = false ∧ RetrievedChunk.is_blog c = true
          ∧ RetrievedChunk.is_wisdom c = false)
      ∨ (RetrievedChunk.is_journal c = false ∧ RetrievedChunk.is_blog c = false
          ∧ RetrievedChunk.is_wisdom c = true) := by
  have hsrc3 : ∀ c ∈ (retrieve store fd self_top_k query top_k? source_filter).1.chunks,
      c.source_type = dayoneStr ∨ c.source_type = wordpressStr ∨
        c.source_type = wisdomStr := by
    intro c hc
    rcases mem_chunks_retrieve store fd self_top_k query top_k? source_filter c hc
      with ⟨q, hq⟩
    rcases List.mem_map.mp hq with ⟨r, hr, rfl⟩
    exact hwf q r hr
  refine ⟨rfl, rfl, rfl, filter_three_perm _ hsrc3, ?_⟩
  intro c hc
  rcases hsrc3 c hc with h | h | h
  · exact Or.inl ⟨by simp only [RetrievedChunk.is_journal, h]; decide,
      by simp only [RetrievedChunk.is_blog, h]; decide,
      by simp only [RetrievedChunk.is_wisdom, h]; decide⟩
  · exact Or.inr (Or.inl ⟨by simp only [RetrievedChunk.is_journal, h]; decide,
      by simp only [RetrievedChunk.is_blog, h]; decide,
      by simp only [RetrievedChunk.is_wisdom, h]; decide⟩)
  · exact Or.inr (Or.inr ⟨by simp only [RetrievedChunk.is_journal, h]; decide,
      by simp only [RetrievedChunk.is_blog, h]; decide,
      by simp only [RetrievedChunk.is_wisdom, h]; decide⟩)

/-- storeSmall only serves rows with the three known source types. -/
theorem storeSmall_wf (q : StoreQuery) : ∀ r ∈ storeSmall q,
    dictGetD r.metadata sourceTypeKey unknownStr = dayoneStr ∨
    dictGetD r.metadata sourceTypeKey unknownStr = wordpressStr ∨
    dictGetD r.metadata sourceTypeKey unknownStr = wisdomStr := by
  intro r hr
  simp only [storeSmall] at hr
  have h2 := List.take_subset _ _ hr
  split_ifs at h2 <;>
    simp only [List.mem_cons, List.not_mem_nil, or_false] at h2
  · rcases h2 with rfl | rfl <;> decide
  · rcases h2 with rfl
    decide
  · rcases h2 with rfl
    decide
  · rcases h2 with rfl | rfl | rfl | rfl <;> decide

open List in
theorem C9_partition_witness :
    ((retrieve storeSmall fdRaw 10 queryNeutral (some 3) (some wisdomStr)).1.journal_chunks
      = (retrieve storeSmall fdRaw 10 queryNeutral (some 3) (some wisdomStr)).1.chunks.filter
          (fun c => RetrievedChunk.is_journal c)
    ∧ (retrieve storeSmall fdRaw 10 queryNeutral (some 3) (some wisdomStr)).1.blog_chunks
      = (retrieve storeSmall fdRaw 10 queryNeutral (some 3) (some wisdomStr)).1.chunks.filter
          (fun c => RetrievedChunk.is_blog c)
    ∧ (retrieve storeSmall fdRaw 10 queryNeutral (some 3) (some wisdomStr)).1.wisdom_chunks
      = (retrieve storeSmall fdRaw 10 queryNeutral (some 3) (some wisdomStr)).1.chunks.filter
          (fun c => RetrievedChunk.is_wisdom c)
    ∧ ((retrieve storeSmall fdRaw 10 queryNeutral (some 3) (some wisdomStr)).1.journal_chunks
        ++ (retrieve storeSmall fdRaw 10 queryNeutral (some 3) (some wisdomStr)).1.blog_chunks
        ++ (retrieve storeSmall fdRaw 10 queryNeutral (some 3) (some wisdomStr)).1.wisdom_chunks)
      ~ (retrieve storeSmall fdRaw 10 queryNeutral (some 3) (some wisdomStr)).1.chunks
    ∧ ∀ c ∈ (retrieve storeSmall fdRaw 10 queryNeutral (some 3) (some wisdomStr)).1.chunks,
        (RetrievedChunk.is_journal c = true ∧ RetrievedChunk.is_blog c = false
          ∧ RetrievedChunk.is_wisdom c = false)
      ∨ (RetrievedChunk.is_journal c = false ∧ RetrievedChunk.is_blog c = true
          ∧ RetrievedChunk.is_wisdom c = false)
      ∨ (RetrievedChunk.is_journal c = false ∧ RetrievedChunk.is_blog c = false
          ∧ RetrievedChunk.is_wisdom c = true)) :=
  C9_partition storeSmall fdRaw 10 queryNeutral (some 3) (some wisdomStr) storeSmall_wf

/-! Claim C7: the context formatter. -/

open List in
/-- a prefix of `u ++ ch :: v` that avoids `ch` is a prefix of `u`. -/
theorem pre_of_append_cons {α : Type} {p u v : List α} {ch : α}
    (h : p <+: u ++ ch :: v) (hch : ch ∉ p) : p <+: u := by
  induction u generalizing p with
  | nil =>
    cases p with
    | nil => exact List.nil_prefix
    | cons x p2 =>
      rcases List.cons_prefix_cons.mp h with ⟨rfl, _⟩
      exact absurd (List.mem_cons_self _ _) hch
  | cons y u2 ih =>
    cases p with
    | nil => exact List.nil_prefix
    | cons x p2 =>
      rw [List.cons_append] at h
      rcases List.cons_prefix_cons.mp h with ⟨rfl, h2⟩
      have hch2 : ch ∉ p2 := fun hm => hch (List.mem_cons_of_mem _ hm)
      exact List.cons_prefix_cons.mpr ⟨rfl, ih h2 hch2⟩

open List in
/-- a contiguous substring of `u ++ ch :: v` that avoids `ch` lies in `u`
or in `v`. -/
theorem inf_of_append_cons {α : Type} {sub u v : List α} {ch : α}
    (h : sub <:+: u ++ ch :: v) (hch : ch ∉ sub) :
    sub <:+: u ∨ sub <:+: v := by
  induction u with
  | nil =>
    rcases List.infix_cons_iff.mp h with hpre | hinf
    · cases sub with
      | nil => exact Or.inl (List.nil_prefix.isInfix)
      | cons x s2 =>
        rcases List.cons_prefix_cons.mp hpre with ⟨rfl, _⟩
        exact absurd (List.mem_cons_self _ _) hch
    · exact Or.inr hinf
  | cons y u2 ih =>
    rw [List.cons_append] at h
    rcases List.infix_cons_iff.mp h with hpre | hinf
    · have hp2 : sub <+: y :: u2 := by
        cases sub with
        | nil => exact List.nil_prefix
        | cons x s2 =>
          rcases List.cons_prefix_cons.mp hpre with ⟨rfl, h2⟩
          have hch2 : ch ∉ s2 := fun hm => hch (List.mem_cons_of_mem _ hm)
          exact List.cons_prefix_cons.mpr
            ⟨rfl, pre_of_append_cons (by simpa using h2) hch2⟩
      exact Or.inl (hp2.isInfix)
    · rcases ih hinf with h1 | h2
      · exact Or.inl (h1.trans (List.suffix_append [y] u2).isInfix)
      · exact Or.inr h2

open List in
/-- a non-empty contiguous substring of a `ch`-joined list of lines that
avoids `ch` is a contiguous substring of one of the lines. -/
theorem inf_joinSep_line {sub : Str} {ch : Char} {ls : List Str}
    (h : sub <:+: joinSep [ch] ls) (hch : ch ∉ sub) (hsub : sub ≠ []) :
    ∃ l ∈ ls, sub <:+: l := by
  induction ls with
  | nil =>
    have : sub = [] := List.eq_nil_of_sublist_nil (List.IsInfix.sublist h)
    exact absurd this hsub
  | cons x ls2 ih =>
    cases ls2 with
    | nil => exact ⟨x, List.mem_cons_self _ _, h⟩
    | cons y ls3 =>
      have he : joinSep [ch] (x :: y :: ls3) = x ++ ch :: joinSep [ch] (y :: ls3) := by
        rw [joinSep_cons_cons]
        simp
      rw [he] at h
      rcases inf_of_append_cons h hch with h1 | h2
      · exact ⟨x, List.mem_cons_self _ _, h1⟩
      · rcases ih h2 with ⟨l, hl, hinf⟩
        exact ⟨l, List.mem_cons_of_mem x hl, hinf⟩

open List in
/-- every line of a joined list of lines is a contiguous substring of the
join. -/
theorem mem_joinSep_inf {l : Str} {sep : Str} {ls : List Str} (h : l ∈ ls) :
    l <:+: joinSep sep ls := by
  induction ls with
  | nil => cases h
  | cons x ls2 ih =>
    cases ls2 with
    | nil =>
      rcases List.mem_cons.mp h with rfl | h2
      · exact List.infix_refl l
      · cases h2
    | cons y ls3 =>
      rw [joinSep_cons_cons]
      rcases List.mem_cons.mp h with rfl | h2
      · exact ((List.prefix_append l (sep ++ joinSep sep (y :: ls3))).trans
          (by rw [List.append_assoc])).isInfix
      · exact ((ih h2).trans (List.suffix_append (x ++ sep) _).isInfix)

open List in
/-- Claim C7: the formatter returns the fixed non-empty no-context
sentinel when all three groups are empty; it produces one labeled section
per non-empty group in the fixed order journal, blog, wisdom, joined by a
blank line; with only journal chunks the output is exactly the journal
section, which contains the journal header and each chunk's stripped
text, and contains neither the blog header nor the wisdom header
(provided no chunk's label line or stripped text itself embeds a header,
which no real chunk does). -/
theorem C7_format_context (fd : Str → Str) (j : List RetrievedChunk) (hj : j ≠ [])
    (hclean : ∀ c ∈ j,
        (¬ blogHeader <:+: journalLabel fd c) ∧ (¬ blogHeader <:+: pyStrip c.text) ∧
        (¬ wisdomHeaderCore <:+: journalLabel fd c) ∧
        (¬ wisdomHeaderCore <:+: pyStrip c.text)) :
    format_context fd [] [] [] = noContextStr
    ∧ noContextStr ≠ []
    ∧ (∀ jl bl wl : List RetrievedChunk, format_context fd jl bl wl
        = if (sectionsOf fd jl bl wl).isEmpty then noContextStr
          else joinSep nlnl (sectionsOf fd jl bl wl))
    ∧ format_context fd j [] [] = format_journal_chunks fd j
    ∧ journalHeader <:+: format_context fd j [] []
    ∧ (∀ c ∈ j, pyStrip c.text <:+: format_context fd j [] [])
    ∧ (¬ blogHeader <:+: format_context fd j [] [])
    ∧ (¬ wisdomHeader <:+: format_context fd j [] []) := by
  have hsec : format_context fd j [] [] = format_journal_chunks fd j := by
    cases j with
    | nil => exact absurd rfl hj
    | cons a t => rfl
  have hnl : nl = ['\n'] := rfl
  have hline : ∀ sub : Str, sub <:+: format_context fd j [] [] → ('\n') ∉ sub →
      sub ≠ [] → ∃ l ∈ journalLines fd j, sub <:+: l := by
    intro sub hs hchs hsubne
    rw [hsec] at hs
    exact inf_joinSep_line (by exact hs) hchs hsubne
  refine ⟨rfl, by decide, fun jl bl wl => rfl, hsec, ?_, ?_, ?_, ?_⟩
  · rw [hsec]
    exact mem_joinSep_inf (List.mem_cons_self _ _)
  · intro c hc
    rw [hsec]
    apply mem_joinSep_inf
    show pyStrip c.text ∈ journalLines fd j
    unfold journalLines
    refine List.mem_cons_of_mem _ (List.mem_cons_of_mem _ ?_)
    exact List.mem_flatten_of_mem (List.mem_map_of_mem _ hc)
      (List.mem_cons_of_mem _ (List.mem_cons_self _ _))
  · intro hbad
    rcases hline blogHeader hbad (by decide) (by decide) with ⟨l, hl, hinf⟩
    unfold journalLines at hl
    rcases List.mem_cons.mp hl with rfl | hl2
    · exact absurd hinf (by decide)
    rcases List.mem_cons.mp hl2 with rfl | hl3
    · exact absurd hinf (by decide)
    rcases List.mem_flatten.mp hl3 with ⟨trip, htrip, hltrip⟩
    rcases List.mem_map.mp htrip with ⟨c, hcj, rfl⟩
    rcases List.mem_cons.mp hltrip with rfl | hl4
    · exact absurd hinf (hclean c hcj).1
    rcases List.mem_cons.mp hl4 with rfl | hl5
    · exact absurd hinf (hclean c hcj).2.1
    rcases List.mem_cons.mp hl5 with rfl | hl6
    · have : blogHeader = [] := List.eq_nil_of_sublist_nil (List.IsInfix.sublist hinf)
      exact absurd this (by decide)
    · cases hl6
  · intro hbad
    have hcore : wisdomHeaderCore <:+: format_context fd j [] [] :=
      List.IsInfix.trans (List.IsPrefix.isInfix (by decide)) hbad
    rcases hline wisdomHeaderCore hcore (by decide) (by decide) with ⟨l, hl, hinf⟩
    unfold journalLines at hl
    rcases List.mem_cons.mp hl with rfl | hl2
    · exact absurd hinf (by decide)
    rcases List.mem_cons.mp hl2 with rfl | hl3
    · exact absurd hinf (by decide)
    rcases List.mem_flatten.mp hl3 with ⟨trip, htrip, hltrip⟩
    rcases List.mem_map.mp htrip with ⟨c, hcj, rfl⟩
    rcases List.mem_cons.mp hltrip with rfl | hl4
    · exact absurd hinf (hclean c hcj).2.2.1
    rcases List.mem_cons.mp hl4 with rfl | hl5
    · exact absurd hinf (hclean c hcj).2.2.2
    rcases List.mem_cons.mp hl5 with rfl | hl6
    · have : wisdomHeaderCore = [] := List.eq_nil_of_sublist_nil (List.IsInfix.sublist hinf)
      exact absurd this (by decide)
    · cases hl6

open List in
theorem C7_format_context_witness :
    ([chunkA] ≠ [] ∧
      ((¬ blogHeader <:+: journalLabel fdRaw chunkA) ∧
        (¬ blogHeader <:+: pyStrip chunkA.text) ∧
        (¬ wisdomHeaderCore <:+: journalLabel fdRaw chunkA) ∧
        (¬ wisdomHeaderCore <:+: pyStrip chunkA.text))) ∧
    (format_context fdRaw [] [] [] = noContextStr
    ∧ noContextStr ≠ []
    ∧ (∀ jl bl wl : List RetrievedChunk, format_context fdRaw jl bl wl
        = if (sectionsOf fdRaw jl bl wl).isEmpty then noContextStr
          else joinSep nlnl (sectionsOf fdRaw jl bl wl))
    ∧ format_context fdRaw [chunkA] [] [] = format_journal_chunks fdRaw [chunkA]
    ∧ journalHeader <:+: format_context fdRaw [chunkA] [] []
    ∧ (∀ c ∈ [chunkA], pyStrip c.text <:+: format_context fdRaw [chunkA] [] [])
    ∧ (¬ blogHeader <:+: format_context fdRaw [chunkA] [] [])
    ∧ (¬ wisdomHeader <:+: format_context fdRaw [chunkA] [] [])) :=
  ⟨⟨by decide, by decide, by decide, by decide, by decide⟩,
    C7_format_context fdRaw [chunkA] (by decide)
      (by intro c hc
          rcases List.mem_cons.mp hc with rfl | h
          · exact ⟨by decide, by decide, by decide, by decide⟩
          · cases h)⟩

end MentorAI
